import Mathlib

/-!
Verification of the Instagram story scheduler (`Insta.py`).

The scheduler keeps an in-memory list of story records, persists the whole
list to a JSON file on every mutation, and registers one-shot timer jobs
(keyed by the story id) that run `post_story` at the scheduled time.
We embed the record type, the JSON persistence, and the four operations
(`schedule_story`, `post_story`, `cancel_scheduled_story`,
`modify_scheduled_story`) as pure functions over an explicit state, with the
file system and the external upload/publish HTTP calls supplied as oracles.
-/

namespace Insta

/-- The `status` field of a story record: `scheduled`, `posted`, `failed`
or `cancelled`. -/
inductive Status where
  | scheduled
  | posted
  | failed
  | cancelled
deriving DecidableEq

/-- One scheduled-story record, mirroring the dict built in `schedule_story`:
keys `id`, `media_path`, `scheduled_time` (the `isoformat()` string),
`caption`, `status`, and an `error` key present only once a failure was
recorded (modelled as `Option String`). -/
structure Story where
  id : Nat
  media_path : String
  scheduled_time : String
  caption : String
  status : Status
  error : Option String
deriving DecidableEq

/-- A JSON value, enough to model what `json.dump`/`json.load` exchange for
story records: strings, numbers, arrays and objects (ordered key/value
lists, as Python dicts preserve insertion order). -/
inductive JValue where
  | jstr (s : String)
  | jnum (n : Nat)
  | jarr (elems : List JValue)
  | jobj (fields : List (String × JValue))

/-- Render a status as the string stored in the JSON file. -/
def statusString : Status → String
  | .scheduled => "scheduled"
  | .posted => "posted"
  | .failed => "failed"
  | .cancelled => "cancelled"

/-- Parse a status string back; unknown strings are rejected. -/
def statusFromString (s : String) : Option Status :=
  if s = "scheduled" then some .scheduled
  else if s = "posted" then some .posted
  else if s = "failed" then some .failed
  else if s = "cancelled" then some .cancelled
  else none

/-- Encode one story record as the JSON object `json.dump` writes for it. -/
def encodeStory (s : Story) : JValue :=
  .jobj ([("id", .jnum s.id),
          ("media_path", .jstr s.media_path),
          ("scheduled_time", .jstr s.scheduled_time),
          ("caption", .jstr s.caption),
          ("status", .jstr (statusString s.status))] ++
         (match s.error with
          | some e => [("error", .jstr e)]
          | none => []))

/-- Dict lookup on a JSON object's field list (first binding wins). -/
def jlookup : List (String × JValue) → String → Option JValue
  | [], _ => none
  | (k, v) :: rest, key => if k = key then some v else jlookup rest key

/-- Decode one story record from a JSON object. -/
def decodeStory : JValue → Option Story
  | .jobj fields =>
    match jlookup fields "id", jlookup fields "media_path",
          jlookup fields "scheduled_time", jlookup fields "caption",
          jlookup fields "status" with
    | some (.jnum i), some (.jstr mp), some (.jstr t), some (.jstr cap),
      some (.jstr stat) =>
      match statusFromString stat with
      | some status =>
        match jlookup fields "error" with
        | some (.jstr e) =>
          some { id := i, media_path := mp, scheduled_time := t,
                 caption := cap, status := status, error := some e }
        | some _ => none
        | none =>
          some { id := i, media_path := mp, scheduled_time := t,
                 caption := cap, status := status, error := none }
      | none => none
    | _, _, _, _, _ => none
  | _ => none

/-- Encode the whole story list as the JSON array written to
`scheduled_stories.json`. -/
def encodeStories (l : List Story) : JValue :=
  .jarr (l.map encodeStory)

/-- Decode a list of story records element by element; any malformed
element rejects the whole list. -/
def decodeStoryList : List JValue → Option (List Story)
  | [] => some []
  | j :: rest =>
    match decodeStory j, decodeStoryList rest with
    | some s, some l => some (s :: l)
    | _, _ => none

/-- Decode the persisted JSON array back into the story list. -/
def decodeStories : JValue → Option (List Story)
  | .jarr elems => decodeStoryList elems
  | _ => none

/-- The scheduler's state: the in-memory list `self.scheduled_stories`, the
ids of the pending one-shot timer jobs registered with the background
scheduler, and the contents of `scheduled_stories.json` (`none` when the
file does not exist). -/
structure SchedulerState where
  scheduled_stories : List Story
  timers : List Nat
  store : Option JValue

/-- `save_scheduled_stories`: overwrite the JSON file with the full list. -/
def save_scheduled_stories (st : SchedulerState) : SchedulerState :=
  { st with store := some (encodeStories st.scheduled_stories) }

/-- `load_scheduled_stories`: read the JSON file back into memory; a missing
file yields the empty list, undecodable content is a propagated error. -/
def load_scheduled_stories (st : SchedulerState) : Option SchedulerState :=
  match st.store with
  | none => some { st with scheduled_stories := [] }
  | some j => (decodeStories j).map (fun l => { st with scheduled_stories := l })

/-- The exceptions the scheduler raises synchronously:
`FileNotFoundError("Media file not found")` from `schedule_story` and
`ValueError("Story not found or already posted/cancelled")` from
`modify_scheduled_story`. -/
inductive SchedErr where
  | fileNotFound (msg : String)
  | valueError (msg : String)
deriving DecidableEq

/-- The record `schedule_story` builds: id is `len(scheduled_stories) + 1`,
status starts as `scheduled`, no error key. -/
def newStory (st : SchedulerState) (media_path scheduled_time caption : String) :
    Story :=
  { id := st.scheduled_stories.length + 1, media_path := media_path,
    scheduled_time := scheduled_time, caption := caption,
    status := .scheduled, error := none }

/-- `schedule_story(media_path, scheduled_time, caption)`. `fs` is the file
system oracle (`os.path.exists`). On a missing file it raises
`FileNotFoundError` before touching any state; otherwise it appends the new
record, saves, and registers a timer job keyed by the new id. The pair
returned is (raised exception or returned record, state afterwards). -/
def schedule_story (fs : String → Bool) (st : SchedulerState)
    (media_path scheduled_time caption : String) :
    Except SchedErr Story × SchedulerState :=
  if fs media_path then
    let story := newStory st media_path scheduled_time caption
    let stories := st.scheduled_stories ++ [story]
    (.ok story,
     { scheduled_stories := stories,
       timers := st.timers ++ [story.id],
       store := some (encodeStories stories) })
  else
    (.error (.fileNotFound "Media file not found"), st)

/-- Outcome of the external upload call in `upload_media`: either an
exception (open/HTTP/network/JSON error) or a parsed JSON response whose
`id` entry is modelled directly (`none` when the key is absent). -/
inductive UploadOutcome where
  | raise (msg : String)
  | resp (mid : Option String)
deriving DecidableEq

/-- Outcome of the create-story HTTP call: success or an exception. -/
inductive PublishOutcome where
  | ok
  | raise (msg : String)
deriving DecidableEq

/-- How `post_story` terminates: a normal return or a re-raised exception
with text `str(e)`. -/
inductive ExecOutcome where
  | returned
  | raised (msg : String)
deriving DecidableEq

/-- Python truthiness of `media_response.get('id')`: a missing key or an
empty string is falsy. -/
def truthyId : Option String → Bool
  | none => false
  | some s => s ≠ ""

/-- Apply `f` to the first record whose `id` matches `sid`, leaving every
other record in place. `post_story` mutates the dict captured by the timer
callback; that dict is the list element carrying the story's id. -/
def updateFirstById (sid : Nat) (f : Story → Story) : List Story → List Story
  | [] => []
  | s :: rest =>
    if s.id = sid then f s :: rest else s :: updateFirstById sid f rest

/-- The `except` branch of `post_story`: mark the story failed, record
`str(e)` under `error`, save, and re-raise. -/
def postFail (st : SchedulerState) (sid : Nat) (msg : String) :
    ExecOutcome × SchedulerState :=
  let stories := updateFirstById sid
    (fun s => { s with status := .failed, error := some msg }) st.scheduled_stories
  (.raised msg,
   { st with scheduled_stories := stories, store := some (encodeStories stories) })

/-- `post_story(story_data)`, the timer callback, acting on the story with id
`sid`. If `upload_media` raises, the except branch runs. If the upload
response carries a truthy `id`, the create-story call is made: on success
the story is marked `posted` and saved, on an exception the except branch
runs. When the response has no truthy `id`, the `if` body is skipped and the
function returns with no status change, no save and no exception. -/
def post_story (upload : UploadOutcome) (publish : PublishOutcome)
    (st : SchedulerState) (sid : Nat) : ExecOutcome × SchedulerState :=
  match upload with
  | .raise msg => postFail st sid msg
  | .resp mid =>
    if truthyId mid then
      match publish with
      | .raise msg => postFail st sid msg
      | .ok =>
        let stories := updateFirstById sid
          (fun s => { s with status := .posted }) st.scheduled_stories
        (.returned,
         { st with scheduled_stories := stories,
                   store := some (encodeStories stories) })
    else
      (.returned, st)

/-- `get_scheduled_stories()`: the full in-memory list, unfiltered. -/
def get_scheduled_stories (st : SchedulerState) : List Story :=
  st.scheduled_stories

/-- The loop of `cancel_scheduled_story`: find the first record with the
requested id in `scheduled` status and flip it to `cancelled`; `none` when
no record qualifies. -/
def cancelLoop (sid : Nat) : List Story → Option (List Story)
  | [] => none
  | s :: rest =>
    if s.id = sid ∧ s.status = .scheduled then
      some ({ s with status := .cancelled } :: rest)
    else
      (cancelLoop sid rest).map (fun l => s :: l)

/-- `cancel_scheduled_story(story_id)`: on a match, set the status to
`cancelled`, remove the pending timer job for that id, save and return
`True`; otherwise return `False` untouched. -/
def cancel_scheduled_story (st : SchedulerState) (sid : Nat) :
    Bool × SchedulerState :=
  match cancelLoop sid st.scheduled_stories with
  | some stories =>
    (true,
     { scheduled_stories := stories,
       timers := st.timers.erase sid,
       store := some (encodeStories stories) })
  | none => (false, st)

/-- The field updates of `modify_scheduled_story`: `if new_time:` replaces
the stored time, `if new_caption is not None:` replaces the caption
(the empty string does update it). -/
def applyMod (new_time new_caption : Option String) (s : Story) : Story :=
  let s1 := match new_time with
    | some t => { s with scheduled_time := t }
    | none => s
  match new_caption with
  | some c => { s1 with caption := c }
  | none => s1

/-- The loop of `modify_scheduled_story`: find the first record with the
requested id in `scheduled` status, apply the updates, and return the
updated record together with the updated list. -/
def modifyLoop (sid : Nat) (new_time new_caption : Option String) :
    List Story → Option (Story × List Story)
  | [] => none
  | s :: rest =>
    if s.id = sid ∧ s.status = .scheduled then
      let s2 := applyMod new_time new_caption s
      some (s2, s2 :: rest)
    else
      (modifyLoop sid new_time new_caption rest).map (fun p => (p.1, s :: p.2))

/-- `modify_scheduled_story(story_id, new_time, new_caption)`: a new time
also reschedules the existing timer job in place (the job id, hence our
timer set, is unchanged); on a match the list is saved and the updated
record returned, otherwise `ValueError` is raised with the state
untouched. -/
def modify_scheduled_story (st : SchedulerState) (sid : Nat)
    (new_time new_caption : Option String) :
    Except SchedErr Story × SchedulerState :=
  match modifyLoop sid new_time new_caption st.scheduled_stories with
  | some (s2, stories) =>
    (.ok s2,
     { st with scheduled_stories := stories,
               store := some (encodeStories stories) })
  | none =>
    (.error (.valueError "Story not found or already posted/cancelled"), st)

/-- One externally observable operation on a scheduler instance: a
`schedule_story` call (with its file-system oracle), a timer firing
`post_story` for a pending job id (with the HTTP oracles), a
`cancel_scheduled_story` call, or a `modify_scheduled_story` call. -/
inductive Op where
  | schedule (fs : String → Bool) (media_path scheduled_time caption : String)
  | fire (sid : Nat) (upload : UploadOutcome) (publish : PublishOutcome)
  | cancel (sid : Nat)
  | modify (sid : Nat) (new_time new_caption : Option String)

/-- Apply one operation to the state. A timer firing is possible only for a
registered pending job id, and consumes that one-shot registration. -/
def applyOp : Op → SchedulerState → SchedulerState
  | .schedule fs p t c, st => (schedule_story fs st p t c).2
  | .fire sid upload publish, st =>
    if sid ∈ st.timers then
      (post_story upload publish { st with timers := st.timers.erase sid } sid).2
    else st
  | .cancel sid, st => (cancel_scheduled_story st sid).2
  | .modify sid nt nc, st => (modify_scheduled_story st sid nt nc).2

/-- The state of a freshly constructed scheduler with no persisted file:
empty list, no pending jobs. -/
def initState : SchedulerState :=
  { scheduled_stories := [], timers := [], store := none }

/-- States a scheduler instance can reach from a fresh start by any
sequence of operations. -/
inductive Reachable : SchedulerState → Prop where
  | init : Reachable initState
  | step (op : Op) (st : SchedulerState) : Reachable st → Reachable (applyOp op st)

/-- The state invariant maintained by every operation: ids are assigned by
position (`count + 1` at creation), pending timer job ids are distinct,
refer to allocated ids, and only ever point at records still in `scheduled`
status. -/
structure Invariant (st : SchedulerState) : Prop where
  ids : ∀ i (hi : i < st.scheduled_stories.length),
    st.scheduled_stories[i].id = i + 1
  timers_nodup : st.timers.Nodup
  timers_bound : ∀ sid ∈ st.timers, sid ≤ st.scheduled_stories.length
  timers_scheduled : ∀ sid ∈ st.timers,
    ∀ i (hi : i < st.scheduled_stories.length),
      st.scheduled_stories[i].id = sid →
      st.scheduled_stories[i].status = .scheduled

/-- A concrete schedule call, used to exhibit reachable states. -/
def demoOp : Op :=
  Op.schedule (fun _ => true) "/media.jpg" "2026-01-01T10:00:00" "hi"

/-- The state after one successful schedule call on a fresh scheduler: one
story with id 1 in `scheduled` status and one pending timer job. -/
def demoState1 : SchedulerState :=
  applyOp demoOp initState

/-- The single record held by `demoState1`. -/
def demoStory : Story :=
  { id := 1, media_path := "/media.jpg", scheduled_time := "2026-01-01T10:00:00",
    caption := "hi", status := .scheduled, error := none }

/-- The state after scheduling and then cancelling the story with id 1: the
single record is in `cancelled` status. -/
def demoState2 : SchedulerState :=
  applyOp (Op.cancel 1) demoState1

/-- Parsing a rendered status string gives back the status. -/
theorem statusFromString_statusString (s : Status) :
    statusFromString (statusString s) = some s := by
  cases s <;> rfl

/-- Decoding an encoded story record gives back the record. -/
theorem decodeStory_encodeStory (s : Story) :
    decodeStory (encodeStory s) = some s := by
  cases s with
  | mk i mp t cap status error => cases error <;> cases status <;> rfl

/-- Decoding an encoded story list gives back the list. -/
theorem decodeStoryList_map_encodeStory (l : List Story) :
    decodeStoryList (l.map encodeStory) = some l := by
  induction l with
  | nil => rfl
  | cons s rest ih => simp [decodeStoryList, decodeStory_encodeStory, ih]

/-- Decoding the encoded story array gives back the list. -/
theorem decodeStories_encodeStories (l : List Story) :
    decodeStories (encodeStories l) = some l := by
  simp [decodeStories, encodeStories, decodeStoryList_map_encodeStory]

/-- `updateFirstById` keeps the list length. -/
theorem length_updateFirstById (sid : Nat) (f : Story → Story) (l : List Story) :
    (updateFirstById sid f l).length = l.length := by
  induction l with
  | nil => rfl
  | cons s rest ih =>
    by_cases h : s.id = sid <;> simp [updateFirstById, h, ih]

/-- Each position of `updateFirstById sid f l` holds either the original
record or, when that record's id is `sid`, its image under `f`. -/
theorem updateFirstById_getElem_or (sid : Nat) (f : Story → Story) :
    ∀ (l : List Story) (i : Nat) (hi : i < l.length)
      (hi' : i < (updateFirstById sid f l).length),
      (updateFirstById sid f l)[i] = l[i] ∨
      (l[i].id = sid ∧ (updateFirstById sid f l)[i] = f l[i])
  | [], i, hi, _ => absurd hi (Nat.not_lt_zero i)
  | s :: rest, i, hi, hi' => by
    by_cases h : s.id = sid
    · cases i with
      | zero => right; exact ⟨h, by simp [updateFirstById, h]⟩
      | succ j => left; simp [updateFirstById, h]
    · cases i with
      | zero => left; simp [updateFirstById, h]
      | succ j =>
        have hj : j < rest.length := Nat.lt_of_succ_lt_succ hi
        have hj' : j < (updateFirstById sid f rest).length := by
          rw [length_updateFirstById]; exact hj
        rcases updateFirstById_getElem_or sid f rest j hj hj' with h1 | ⟨h1, h2⟩
        · left; simpa [updateFirstById, h] using h1
        · right; exact ⟨by simpa using h1, by simpa [updateFirstById, h] using h2⟩

/-- When position `i` holds the first record with id `sid`,
`updateFirstById` rewrites exactly that position. -/
theorem updateFirstById_spec (sid : Nat) (f : Story → Story) :
    ∀ (l : List Story) (i : Nat) (hi : i < l.length),
      l[i].id = sid →
      (∀ j (hj : j < l.length), j < i → l[j].id ≠ sid) →
      updateFirstById sid f l = l.set i (f l[i])
  | [], i, hi, _, _ => absurd hi (Nat.not_lt_zero i)
  | s :: rest, i, hi, hid, hfirst => by
    cases i with
    | zero =>
      have h : s.id = sid := by simpa using hid
      simp [updateFirstById, h]
    | succ j =>
      have h : s.id ≠ sid := by
        have := hfirst 0 (Nat.succ_pos rest.length) (Nat.succ_pos j)
        simpa using this
      have ih := updateFirstById_spec sid f rest j (Nat.lt_of_succ_lt_succ hi)
        (by simpa using hid)
        (fun k hk hkj => by
          have := hfirst (k + 1) (Nat.succ_lt_succ hk) (Nat.succ_lt_succ hkj)
          simpa using this)
      simp [updateFirstById, h, ih]

/-- When no record has the requested id in `scheduled` status, the cancel
loop falls through. -/
theorem cancelLoop_eq_none (sid : Nat) :
    ∀ (l : List Story), (∀ s ∈ l, ¬(s.id = sid ∧ s.status = .scheduled)) →
      cancelLoop sid l = none
  | [], _ => rfl
  | s :: rest, h => by
    have hs : ¬(s.id = sid ∧ s.status = .scheduled) := h s (by simp)
    have ih := cancelLoop_eq_none sid rest (fun x hx => h x (by simp [hx]))
    simp [cancelLoop, hs, ih]

/-- The cancel loop either falls through, or flips the status of some record
that had the requested id in `scheduled` status, leaving the rest alone. -/
theorem cancelLoop_cases (sid : Nat) :
    ∀ (l : List Story),
      cancelLoop sid l = none ∨
      ∃ i, ∃ hi : i < l.length,
        l[i].id = sid ∧ l[i].status = .scheduled ∧
        cancelLoop sid l = some (l.set i { l[i] with status := .cancelled })
  | [] => Or.inl rfl
  | s :: rest => by
    by_cases hs : s.id = sid ∧ s.status = .scheduled
    · right
      exact ⟨0, Nat.succ_pos rest.length, by simpa using hs.1, by simpa using hs.2,
        by simp [cancelLoop, hs]⟩
    · rcases cancelLoop_cases sid rest with h | ⟨i, hi, h1, h2, h3⟩
      · left; simp [cancelLoop, hs, h]
      · right
        exact ⟨i + 1, Nat.succ_lt_succ hi, by simpa using h1, by simpa using h2,
          by simp [cancelLoop, hs, h3]⟩

/-- When position `i` holds the first record with the requested id in
`scheduled` status, the cancel loop flips exactly that record. -/
theorem cancelLoop_spec (sid : Nat) :
    ∀ (l : List Story) (i : Nat) (hi : i < l.length),
      l[i].id = sid → l[i].status = .scheduled →
      (∀ j (hj : j < l.length), j < i →
        ¬(l[j].id = sid ∧ l[j].status = .scheduled)) →
      cancelLoop sid l = some (l.set i { l[i] with status := .cancelled })
  | [], i, hi, _, _, _ => absurd hi (Nat.not_lt_zero i)
  | s :: rest, i, hi, hid, hsched, hfirst => by
    cases i with
    | zero =>
      have h : s.id = sid ∧ s.status = .scheduled := by
        constructor
        · simpa using hid
        · simpa using hsched
      simp [cancelLoop, h]
    | succ j =>
      have h : ¬(s.id = sid ∧ s.status = .scheduled) := by
        have := hfirst 0 (Nat.succ_pos rest.length) (Nat.succ_pos j)
        simpa using this
      have ih := cancelLoop_spec sid rest j (Nat.lt_of_succ_lt_succ hi)
        (by simpa using hid) (by simpa using hsched)
        (fun k hk hkj => by
          have := hfirst (k + 1) (Nat.succ_lt_succ hk) (Nat.succ_lt_succ hkj)
          simpa using this)
      simp [cancelLoop, h, ih]

/-- `applyMod` never changes the record's id. -/
theorem applyMod_id (nt nc : Option String) (s : Story) :
    (applyMod nt nc s).id = s.id := by
  cases nt <;> cases nc <;> rfl

/-- `applyMod` never changes the record's status. -/
theorem applyMod_status (nt nc : Option String) (s : Story) :
    (applyMod nt nc s).status = s.status := by
  cases nt <;> cases nc <;> rfl

/-- `applyMod` never changes the record's media path. -/
theorem applyMod_media_path (nt nc : Option String) (s : Story) :
    (applyMod nt nc s).media_path = s.media_path := by
  cases nt <;> cases nc <;> rfl

/-- The caption after `applyMod`: replaced when a new caption is given
(including the empty string), untouched when it is absent. -/
theorem applyMod_caption (nt nc : Option String) (s : Story) :
    (applyMod nt nc s).caption = nc.getD s.caption := by
  cases nt <;> cases nc <;> rfl

/-- The stored time after `applyMod`: replaced when a new time is given,
untouched when it is absent. -/
theorem applyMod_scheduled_time (nt nc : Option String) (s : Story) :
    (applyMod nt nc s).scheduled_time = nt.getD s.scheduled_time := by
  cases nt <;> cases nc <;> rfl

/-- When no record has the requested id in `scheduled` status, the modify
loop falls through. -/
theorem modifyLoop_eq_none (sid : Nat) (nt nc : Option String) :
    ∀ (l : List Story), (∀ s ∈ l, ¬(s.id = sid ∧ s.status = .scheduled)) →
      modifyLoop sid nt nc l = none
  | [], _ => rfl
  | s :: rest, h => by
    have hs : ¬(s.id = sid ∧ s.status = .scheduled) := h s (by simp)
    have ih := modifyLoop_eq_none sid nt nc rest (fun x hx => h x (by simp [hx]))
    simp [modifyLoop, hs, ih]

/-- The modify loop either falls through, or updates some record that had
the requested id in `scheduled` status, leaving the rest alone. -/
theorem modifyLoop_cases (sid : Nat) (nt nc : Option String) :
    ∀ (l : List Story),
      modifyLoop sid nt nc l = none ∨
      ∃ i, ∃ hi : i < l.length,
        l[i].id = sid ∧ l[i].status = .scheduled ∧
        modifyLoop sid nt nc l =
          some (applyMod nt nc l[i], l.set i (applyMod nt nc l[i]))
  | [] => Or.inl rfl
  | s :: rest => by
    by_cases hs : s.id = sid ∧ s.status = .scheduled
    · right
      exact ⟨0, Nat.succ_pos rest.length, by simpa using hs.1, by simpa using hs.2,
        by simp [modifyLoop, hs]⟩
    · rcases modifyLoop_cases sid nt nc rest with h | ⟨i, hi, h1, h2, h3⟩
      · left; simp [modifyLoop, hs, h]
      · right
        exact ⟨i + 1, Nat.succ_lt_succ hi, by simpa using h1, by simpa using h2,
          by simp [modifyLoop, hs, h3]⟩

/-- When position `i` holds the first record with the requested id in
`scheduled` status, the modify loop updates exactly that record. -/
theorem modifyLoop_spec (sid : Nat) (nt nc : Option String) :
    ∀ (l : List Story) (i : Nat) (hi : i < l.length),
      l[i].id = sid → l[i].status = .scheduled →
      (∀ j (hj : j < l.length), j < i →
        ¬(l[j].id = sid ∧ l[j].status = .scheduled)) →
      modifyLoop sid nt nc l =
        some (applyMod nt nc l[i], l.set i (applyMod nt nc l[i]))
  | [], i, hi, _, _, _ => absurd hi (Nat.not_lt_zero i)
  | s :: rest, i, hi, hid, hsched, hfirst => by
    cases i with
    | zero =>
      have h : s.id = sid ∧ s.status = .scheduled := by
        constructor
        · simpa using hid
        · simpa using hsched
      simp [modifyLoop, h]
    | succ j =>
      have h : ¬(s.id = sid ∧ s.status = .scheduled) := by
        have := hfirst 0 (Nat.succ_pos rest.length) (Nat.succ_pos j)
        simpa using this
      have ih := modifyLoop_spec sid nt nc rest j (Nat.lt_of_succ_lt_succ hi)
        (by simpa using hid) (by simpa using hsched)
        (fun k hk hkj => by
          have := hfirst (k + 1) (Nat.succ_lt_succ hk) (Nat.succ_lt_succ hkj)
          simpa using this)
      simp [modifyLoop, h, ih]

/-- Dropping a pending timer job preserves the invariant. -/
theorem invariant_erase (st : SchedulerState) (hinv : Invariant st) (sid : Nat) :
    Invariant { st with timers := st.timers.erase sid } := by
  refine ⟨hinv.ids, hinv.timers_nodup.erase sid, ?_, ?_⟩
  · exact fun x hx => hinv.timers_bound x (List.mem_of_mem_erase hx)
  · exact fun x hx => hinv.timers_scheduled x (List.mem_of_mem_erase hx)

/-- Rewriting the first record with a pending job's id (keeping its id) and
consuming that job preserves the invariant, whatever gets persisted. -/
theorem invariant_updateFirst_erase (st : SchedulerState) (hinv : Invariant st)
    (sid : Nat) (f : Story → Story) (hfid : ∀ s, (f s).id = s.id)
    (o : Option JValue) :
    Invariant { scheduled_stories := updateFirstById sid f st.scheduled_stories,
                timers := st.timers.erase sid, store := o } := by
  have hlen : (updateFirstById sid f st.scheduled_stories).length =
      st.scheduled_stories.length := length_updateFirstById sid f _
  refine ⟨?_, hinv.timers_nodup.erase sid, ?_, ?_⟩
  · intro i hi
    have hi' : i < (updateFirstById sid f st.scheduled_stories).length := hi
    have hi0 : i < st.scheduled_stories.length := by rw [← hlen]; exact hi'
    show (updateFirstById sid f st.scheduled_stories)[i].id = i + 1
    rcases updateFirstById_getElem_or sid f st.scheduled_stories i hi0 hi' with
      h | ⟨_, h⟩
    · rw [h]; exact hinv.ids i hi0
    · rw [h, hfid]; exact hinv.ids i hi0
  · intro x hx
    show x ≤ (updateFirstById sid f st.scheduled_stories).length
    rw [hlen]
    exact hinv.timers_bound x (List.mem_of_mem_erase hx)
  · intro x hx i hi hid
    have hxs : x ≠ sid ∧ x ∈ st.timers :=
      (hinv.timers_nodup.mem_erase_iff).mp hx
    have hi' : i < (updateFirstById sid f st.scheduled_stories).length := hi
    have hi0 : i < st.scheduled_stories.length := by rw [← hlen]; exact hi'
    have hid' : (updateFirstById sid f st.scheduled_stories)[i].id = x := hid
    show (updateFirstById sid f st.scheduled_stories)[i].status = .scheduled
    rcases updateFirstById_getElem_or sid f st.scheduled_stories i hi0 hi' with
      h | ⟨hsid, h⟩
    · rw [h]
      exact hinv.timers_scheduled x hxs.2 i hi0 (by rw [← h]; exact hid')
    · exfalso
      apply hxs.1
      rw [← hid', h, hfid, hsid]

/-- A successful or failed schedule call preserves the invariant. -/
theorem invariant_schedule (st : SchedulerState) (hinv : Invariant st)
    (fs : String → Bool) (p t c : String) :
    Invariant (schedule_story fs st p t c).2 := by
  by_cases h : fs p
  · simp only [schedule_story, h, if_pos]
    refine ⟨?_, ?_, ?_, ?_⟩
    · intro i hi
      have hi2 : i < (st.scheduled_stories ++ [newStory st p t c]).length := hi
      have hi3 : i < st.scheduled_stories.length + 1 := by simpa using hi2
      show (st.scheduled_stories ++ [newStory st p t c])[i].id = i + 1
      rcases Nat.lt_or_ge i st.scheduled_stories.length with hlt | hge
      · rw [List.getElem_append_left hlt]
        exact hinv.ids i hlt
      · have hieq : i = st.scheduled_stories.length := by omega
        subst hieq
        rw [List.getElem_concat_length st.scheduled_stories (newStory st p t c) _ rfl]
        rfl
    · show (st.timers ++ [(newStory st p t c).id]).Nodup
      rw [List.nodup_append]
      refine ⟨hinv.timers_nodup, List.nodup_singleton _, ?_⟩
      rw [List.disjoint_singleton]
      intro hmem
      have hb := hinv.timers_bound _ hmem
      rw [show (newStory st p t c).id = st.scheduled_stories.length + 1 from rfl] at hb
      omega
    · intro x hx
      show x ≤ (st.scheduled_stories ++ [newStory st p t c]).length
      rw [List.length_append]
      rcases List.mem_append.mp hx with hx | hx
      · have hb := hinv.timers_bound x hx
        simp only [List.length_singleton]
        omega
      · simp only [List.mem_singleton] at hx
        rw [hx, show (newStory st p t c).id = st.scheduled_stories.length + 1 from rfl]
        simp
    · intro x hx i hi hid
      have hi2 : i < (st.scheduled_stories ++ [newStory st p t c]).length := hi
      have hi3 : i < st.scheduled_stories.length + 1 := by simpa using hi2
      have hid2 : (st.scheduled_stories ++ [newStory st p t c])[i].id = x := hid
      show (st.scheduled_stories ++ [newStory st p t c])[i].status = .scheduled
      rcases Nat.lt_or_ge i st.scheduled_stories.length with hlt | hge
      · rw [List.getElem_append_left hlt] at hid2 ⊢
        rcases List.mem_append.mp hx with hx | hx
        · exact hinv.timers_scheduled x hx i hlt hid2
        · exfalso
          simp only [List.mem_singleton] at hx
          have hids := hinv.ids i hlt
          rw [hids] at hid2
          rw [hx, show (newStory st p t c).id = st.scheduled_stories.length + 1 from rfl]
            at hid2
          omega
      · have hieq : i = st.scheduled_stories.length := by omega
        subst hieq
        rw [List.getElem_concat_length st.scheduled_stories (newStory st p t c) _ rfl]
        rfl
  · simp only [schedule_story, if_neg h]
    exact hinv

/-- A timer firing (in any upload/publish outcome) preserves the invariant. -/
theorem invariant_fire (st : SchedulerState) (hinv : Invariant st) (sid : Nat)
    (upload : UploadOutcome) (publish : PublishOutcome) :
    Invariant (applyOp (.fire sid upload publish) st) := by
  simp only [applyOp]
  by_cases hmem : sid ∈ st.timers
  · simp only [hmem, if_pos]
    cases upload with
    | raise msg =>
      simp only [post_story, postFail]
      exact invariant_updateFirst_erase st hinv sid
        (fun s => { s with status := .failed, error := some msg }) (fun s => rfl) _
    | resp mid =>
      by_cases htr : truthyId mid
      · cases publish with
        | raise msg =>
          simp only [post_story, htr, if_pos, postFail]
          exact invariant_updateFirst_erase st hinv sid
            (fun s => { s with status := .failed, error := some msg }) (fun s => rfl) _
        | ok =>
          simp only [post_story, htr, if_pos]
          exact invariant_updateFirst_erase st hinv sid
            (fun s => { s with status := .posted }) (fun s => rfl) _
      · simp only [post_story, htr, Bool.false_eq_true, if_neg, not_false_iff]
        exact invariant_erase st hinv sid
  · simp only [if_neg hmem]
    exact hinv

/-- A cancel call preserves the invariant. -/
theorem invariant_cancel (st : SchedulerState) (hinv : Invariant st) (sid : Nat) :
    Invariant (cancel_scheduled_story st sid).2 := by
  rcases cancelLoop_cases sid st.scheduled_stories with h | ⟨i, hi, hid, hsched, h⟩
  · simp only [cancel_scheduled_story, h]
    exact hinv
  · simp only [cancel_scheduled_story, h]
    refine ⟨?_, hinv.timers_nodup.erase sid, ?_, ?_⟩
    · intro j hj
      have hj2 : j < (st.scheduled_stories.set i
          { st.scheduled_stories[i] with status := .cancelled }).length := hj
      have hj0 : j < st.scheduled_stories.length := by simpa using hj2
      show (st.scheduled_stories.set i
          { st.scheduled_stories[i] with status := .cancelled })[j].id = j + 1
      by_cases hij : i = j
      · subst hij
        rw [List.getElem_set_self]
        exact hinv.ids i hj0
      · rw [List.getElem_set_ne hij]
        exact hinv.ids j hj0
    · intro x hx
      show x ≤ (st.scheduled_stories.set i
          { st.scheduled_stories[i] with status := .cancelled }).length
      rw [List.length_set]
      exact hinv.timers_bound x (List.mem_of_mem_erase hx)
    · intro x hx j hj hjid
      have hxs : x ≠ sid ∧ x ∈ st.timers :=
        (hinv.timers_nodup.mem_erase_iff).mp hx
      have hj2 : j < (st.scheduled_stories.set i
          { st.scheduled_stories[i] with status := .cancelled }).length := hj
      have hj0 : j < st.scheduled_stories.length := by simpa using hj2
      have hjid2 : (st.scheduled_stories.set i
          { st.scheduled_stories[i] with status := .cancelled })[j].id = x := hjid
      show (st.scheduled_stories.set i
          { st.scheduled_stories[i] with status := .cancelled })[j].status = .scheduled
      by_cases hij : i = j
      · exfalso
        subst hij
        rw [List.getElem_set_self] at hjid2
        apply hxs.1
        rw [← hjid2]
        exact hid
      · rw [List.getElem_set_ne hij] at hjid2 ⊢
        exact hinv.timers_scheduled x hxs.2 j hj0 hjid2

/-- A modify call preserves the invariant. -/
theorem invariant_modify (st : SchedulerState) (hinv : Invariant st) (sid : Nat)
    (nt nc : Option String) :
    Invariant (modify_scheduled_story st sid nt nc).2 := by
  rcases modifyLoop_cases sid nt nc st.scheduled_stories with h | ⟨i, hi, hid, hsched, h⟩
  · simp only [modify_scheduled_story, h]
    exact hinv
  · simp only [modify_scheduled_story, h]
    refine ⟨?_, hinv.timers_nodup, ?_, ?_⟩
    · intro j hj
      have hj2 : j < (st.scheduled_stories.set i
          (applyMod nt nc st.scheduled_stories[i])).length := hj
      have hj0 : j < st.scheduled_stories.length := by simpa using hj2
      show (st.scheduled_stories.set i
          (applyMod nt nc st.scheduled_stories[i]))[j].id = j + 1
      by_cases hij : i = j
      · subst hij
        rw [List.getElem_set_self, applyMod_id]
        exact hinv.ids i hj0
      · rw [List.getElem_set_ne hij]
        exact hinv.ids j hj0
    · intro x hx
      show x ≤ (st.scheduled_stories.set i
          (applyMod nt nc st.scheduled_stories[i])).length
      rw [List.length_set]
      exact hinv.timers_bound x hx
    · intro x hx j hj hjid
      have hj2 : j < (st.scheduled_stories.set i
          (applyMod nt nc st.scheduled_stories[i])).length := hj
      have hj0 : j < st.scheduled_stories.length := by simpa using hj2
      have hjid2 : (st.scheduled_stories.set i
          (applyMod nt nc st.scheduled_stories[i]))[j].id = x := hjid
      show (st.scheduled_stories.set i
          (applyMod nt nc st.scheduled_stories[i]))[j].status = .scheduled
      by_cases hij : i = j
      · subst hij
        rw [List.getElem_set_self, applyMod_status]
        exact hsched
      · rw [List.getElem_set_ne hij] at hjid2 ⊢
        exact hinv.timers_scheduled x hx j hj0 hjid2

/-- Every reachable scheduler state satisfies the invariant. -/
theorem reachable_invariant (st : SchedulerState) (h : Reachable st) :
    Invariant st := by
  induction h with
  | init =>
    exact ⟨fun i hi => by simp [initState] at hi, by simp [initState],
           fun x hx => by simp [initState] at hx,
           fun x hx => by simp [initState] at hx⟩
  | step op st1 _ ih =>
    cases op with
    | schedule fs p t c => exact invariant_schedule st1 ih fs p t c
    | fire sid upload publish => exact invariant_fire st1 ih sid upload publish
    | cancel sid => exact invariant_cancel st1 ih sid
    | modify sid nt nc => exact invariant_modify st1 ih sid nt nc

/-- In a reachable state the record ids are `1, 2, …, n` in order. -/
theorem invariant_ids_map (st : SchedulerState) (hinv : Invariant st) :
    st.scheduled_stories.map Story.id =
      List.range' 1 st.scheduled_stories.length := by
  apply List.ext_getElem
  · simp
  · intro n h1 h2
    have hn : n < st.scheduled_stories.length := by simpa using h1
    have hids := hinv.ids n hn
    simp [hids]
    omega

/-- In a reachable state no two records share an id. -/
theorem invariant_ids_nodup (st : SchedulerState) (hinv : Invariant st) :
    (st.scheduled_stories.map Story.id).Nodup := by
  rw [invariant_ids_map st hinv]
  exact List.nodup_range' 1 st.scheduled_stories.length

/-- The schedule-then-cancel demo state is reachable. -/
theorem demoState1_reachable : Reachable demoState1 :=
  Reachable.step demoOp initState Reachable.init

/-- With position-assigned ids, a record with the requested id at position
`i` is the first record matching any id-based search predicate. -/
theorem invariant_first_match (st : SchedulerState) (hinv : Invariant st)
    (sid : Nat) (i : Nat) (hi : i < st.scheduled_stories.length)
    (hid : st.scheduled_stories[i].id = sid) :
    ∀ j (hj : j < st.scheduled_stories.length), j < i →
      ¬(st.scheduled_stories[j].id = sid ∧
        st.scheduled_stories[j].status = .scheduled) := by
  intro j hj hji hand
  have h1 := hinv.ids i hi
  have h2 := hinv.ids j hj
  obtain ⟨ha, _⟩ := hand
  rw [h1] at hid
  rw [h2] at ha
  omega

/-- C4: a schedule call whose media path does not exist raises
`FileNotFoundError("Media file not found")` and returns the state exactly as
it was: no record appended, nothing persisted, no timer registered. -/
theorem c4_schedule_missing_file (fs : String → Bool) (st : SchedulerState)
    (p t c : String) (h : fs p = false) :
    schedule_story fs st p t c =
      (.error (.fileNotFound "Media file not found"), st) := by
  simp [schedule_story, h]

/-- Witness for C4 at a concrete input: scheduling on an all-missing file
system from the fresh state fails and leaves the fresh state intact. -/
theorem c4_schedule_missing_file_witness :
    ((fun _ : String => false) "/media.jpg") = false ∧
    schedule_story (fun _ => false) initState "/media.jpg" "2026-01-01T10:00:00" "hi" =
      (.error (.fileNotFound "Media file not found"), initState) :=
  ⟨rfl, c4_schedule_missing_file (fun _ => false) initState "/media.jpg"
    "2026-01-01T10:00:00" "hi" rfl⟩

/-- C3: a successful schedule call returns a record in `scheduled` status
whose id is the prior record count plus one, appends that record as the last
element of the list `get_scheduled_stories` returns, and (in any reachable
state) the resulting ids are pairwise distinct. -/
theorem c3_schedule_success (st : SchedulerState) (hst : Reachable st)
    (fs : String → Bool) (p t c : String) (story : Story) (st' : SchedulerState)
    (h : schedule_story fs st p t c = (.ok story, st')) :
    story.status = .scheduled ∧
    story.id = (get_scheduled_stories st).length + 1 ∧
    get_scheduled_stories st' = get_scheduled_stories st ++ [story] ∧
    ((get_scheduled_stories st').map Story.id).Nodup := by
  by_cases hfs : fs p
  · rw [schedule_story, if_pos hfs] at h
    simp only [Prod.mk.injEq, Except.ok.injEq] at h
    obtain ⟨h1, h2⟩ := h
    subst h1
    subst h2
    have hr : Reachable (schedule_story fs st p t c).2 :=
      Reachable.step (Op.schedule fs p t c) st hst
    rw [schedule_story, if_pos hfs] at hr
    exact ⟨rfl, rfl, rfl, invariant_ids_nodup _ (reachable_invariant _ hr)⟩
  · rw [schedule_story, if_neg hfs] at h
    simp at h

/-- Witness for C3 at a concrete input: the first schedule call on a fresh
scheduler yields the record with id 1 appended to the empty list. -/
theorem c3_schedule_success_witness :
    Reachable initState ∧
    schedule_story (fun _ => true) initState "/media.jpg" "2026-01-01T10:00:00" "hi" =
      (.ok demoStory, demoState1) ∧
    (demoStory.status = .scheduled ∧
     demoStory.id = (get_scheduled_stories initState).length + 1 ∧
     get_scheduled_stories demoState1 = get_scheduled_stories initState ++ [demoStory] ∧
     ((get_scheduled_stories demoState1).map Story.id).Nodup) :=
  ⟨Reachable.init, rfl,
   c3_schedule_success initState Reachable.init (fun _ => true) "/media.jpg"
     "2026-01-01T10:00:00" "hi" demoStory demoState1 rfl⟩

/-- C5: when no record carries the requested id in `scheduled` status — the
id is unknown, or its record is already `posted`, `failed` or `cancelled` —
modify raises `ValueError` (the spec's `NotFound`) and returns the state
exactly as it was: nothing is mutated, nothing is persisted. -/
theorem c5_modify_not_found (st : SchedulerState) (sid : Nat)
    (nt nc : Option String)
    (h : ∀ s ∈ st.scheduled_stories, s.id = sid → s.status ≠ .scheduled) :
    modify_scheduled_story st sid nt nc =
      (.error (.valueError "Story not found or already posted/cancelled"), st) := by
  have hnone := modifyLoop_eq_none sid nt nc st.scheduled_stories
    (fun s hs hand => h s hs hand.1 hand.2)
  simp [modify_scheduled_story, hnone]

/-- Witness for C5 at a concrete input: modifying the already-cancelled
record with id 1 fails and leaves the state intact. -/
theorem c5_modify_not_found_witness :
    (∀ s ∈ demoState2.scheduled_stories, s.id = 1 → s.status ≠ .scheduled) ∧
    modify_scheduled_story demoState2 1 none (some "new caption") =
      (.error (.valueError "Story not found or already posted/cancelled"),
       demoState2) :=
  ⟨by decide,
   c5_modify_not_found demoState2 1 none (some "new caption") (by decide)⟩

/-- C6: when the requested id matches no record, or only records already in
`posted`, `failed` or `cancelled` status, cancel returns `False` and leaves
every record and the whole state unaltered. -/
theorem c6_cancel_not_found (st : SchedulerState) (sid : Nat)
    (h : ∀ s ∈ st.scheduled_stories, s.id = sid → s.status ≠ .scheduled) :
    cancel_scheduled_story st sid = (false, st) := by
  have hnone := cancelLoop_eq_none sid st.scheduled_stories
    (fun s hs hand => h s hs hand.1 hand.2)
  simp [cancel_scheduled_story, hnone]

/-- Witness for C6 at a concrete input: cancelling the already-cancelled
record with id 1 returns false and leaves the state intact. -/
theorem c6_cancel_not_found_witness :
    (∀ s ∈ demoState2.scheduled_stories, s.id = 1 → s.status ≠ .scheduled) ∧
    cancel_scheduled_story demoState2 1 = (false, demoState2) :=
  ⟨by decide, c6_cancel_not_found demoState2 1 (by decide)⟩

/-- C7: cancelling an id whose record is in `scheduled` status returns
`True`, flips exactly that record to `cancelled`, removes the pending timer
job for the id — so a later firing for it is a no-op — and persists the
updated list. -/
theorem c7_cancel_success (st : SchedulerState) (hst : Reachable st) (sid : Nat)
    (i : Nat) (hi : i < st.scheduled_stories.length)
    (hid : st.scheduled_stories[i].id = sid)
    (hsched : st.scheduled_stories[i].status = .scheduled) :
    (cancel_scheduled_story st sid).1 = true ∧
    (cancel_scheduled_story st sid).2.scheduled_stories =
      st.scheduled_stories.set i
        { st.scheduled_stories[i] with status := .cancelled } ∧
    sid ∉ (cancel_scheduled_story st sid).2.timers ∧
    (∀ upload publish,
      applyOp (.fire sid upload publish) (cancel_scheduled_story st sid).2 =
        (cancel_scheduled_story st sid).2) ∧
    (cancel_scheduled_story st sid).2.store =
      some (encodeStories (cancel_scheduled_story st sid).2.scheduled_stories) := by
  have hinv := reachable_invariant st hst
  have hfirst := invariant_first_match st hinv sid i hi hid
  have hcl := cancelLoop_spec sid st.scheduled_stories i hi hid hsched hfirst
  have hnot : sid ∉ st.timers.erase sid := fun hmem =>
    ((hinv.timers_nodup.mem_erase_iff).mp hmem).1 rfl
  refine ⟨?_, ?_, ?_, ?_, ?_⟩
  · simp [cancel_scheduled_story, hcl]
  · simp [cancel_scheduled_story, hcl]
  · simp only [cancel_scheduled_story, hcl]
    exact hnot
  · intro upload publish
    simp [cancel_scheduled_story, hcl, applyOp, hnot]
  · simp [cancel_scheduled_story, hcl]

/-- Witness for C7 at a concrete input: cancelling id 1 right after
scheduling it succeeds and removes the pending timer job. -/
theorem c7_cancel_success_witness :
    (cancel_scheduled_story demoState1 1).1 = true ∧
    1 ∉ (cancel_scheduled_story demoState1 1).2.timers ∧
    (cancel_scheduled_story demoState1 1).2.store =
      some (encodeStories (cancel_scheduled_story demoState1 1).2.scheduled_stories) :=
  ⟨(c7_cancel_success demoState1 demoState1_reachable 1 0 (by decide) rfl rfl).1,
   (c7_cancel_success demoState1 demoState1_reachable 1 0 (by decide) rfl rfl).2.2.1,
   (c7_cancel_success demoState1 demoState1_reachable 1 0 (by decide) rfl rfl).2.2.2.2⟩

/-- C8: modifying an id whose record is in `scheduled` status applies the
caption update exactly when a new caption is given — the empty string does
update it, an absent caption leaves it unchanged — likewise for the time,
then persists the updated list and returns the updated record. -/
theorem c8_modify_updates (st : SchedulerState) (hst : Reachable st) (sid : Nat)
    (nt nc : Option String) (i : Nat) (hi : i < st.scheduled_stories.length)
    (hid : st.scheduled_stories[i].id = sid)
    (hsched : st.scheduled_stories[i].status = .scheduled) :
    modify_scheduled_story st sid nt nc =
      (.ok (applyMod nt nc st.scheduled_stories[i]),
       { st with
           scheduled_stories := st.scheduled_stories.set i
             (applyMod nt nc st.scheduled_stories[i]),
           store := some (encodeStories (st.scheduled_stories.set i
             (applyMod nt nc st.scheduled_stories[i]))) }) ∧
    (applyMod nt nc st.scheduled_stories[i]).caption =
      nc.getD st.scheduled_stories[i].caption ∧
    (applyMod nt nc st.scheduled_stories[i]).scheduled_time =
      nt.getD st.scheduled_stories[i].scheduled_time := by
  have hinv := reachable_invariant st hst
  have hfirst := invariant_first_match st hinv sid i hi hid
  have hml := modifyLoop_spec sid nt nc st.scheduled_stories i hi hid hsched hfirst
  exact ⟨by simp [modify_scheduled_story, hml],
         applyMod_caption nt nc _, applyMod_scheduled_time nt nc _⟩

/-- Witness for C8 at a concrete input: modifying id 1 with the empty string
as the new caption really sets the caption to the empty string and persists
the updated record. -/
theorem c8_modify_updates_witness :
    modify_scheduled_story demoState1 1 none (some "") =
      (.ok (applyMod none (some "") demoStory),
       { demoState1 with
           scheduled_stories :=
             demoState1.scheduled_stories.set 0 (applyMod none (some "") demoStory),
           store := some (encodeStories
             (demoState1.scheduled_stories.set 0 (applyMod none (some "") demoStory))) }) ∧
    (applyMod none (some "") demoStory).caption = "" :=
  ⟨(c8_modify_updates demoState1 demoState1_reachable 1 none (some "") 0
      (by decide) rfl rfl).1,
   (c8_modify_updates demoState1 demoState1_reachable 1 none (some "") 0
      (by decide) rfl rfl).2.1⟩

/-- A cancel call keeps the length and every record with a different id. -/
theorem cancel_frame (st : SchedulerState) (sid : Nat) (i : Nat)
    (hi : i < st.scheduled_stories.length)
    (hne : st.scheduled_stories[i].id ≠ sid) :
    (cancel_scheduled_story st sid).2.scheduled_stories.length =
      st.scheduled_stories.length ∧
    ∃ h1 : i < (cancel_scheduled_story st sid).2.scheduled_stories.length,
      (cancel_scheduled_story st sid).2.scheduled_stories[i] =
        st.scheduled_stories[i] := by
  rcases cancelLoop_cases sid st.scheduled_stories with hcl | ⟨j, hj, hidj, _, hcl⟩
  · have hsame : (cancel_scheduled_story st sid).2 = st := by
      simp [cancel_scheduled_story, hcl]
    rw [hsame]
    exact ⟨rfl, hi, rfl⟩
  · have hji : j ≠ i := fun hji => hne (hji ▸ hidj)
    simp only [cancel_scheduled_story, hcl]
    constructor
    · exact List.length_set _ _ _
    · exact ⟨by rw [List.length_set]; exact hi, List.getElem_set_ne hji _⟩

/-- A modify call keeps the length and every record with a different id. -/
theorem modify_frame (st : SchedulerState) (sid : Nat) (nt nc : Option String)
    (i : Nat) (hi : i < st.scheduled_stories.length)
    (hne : st.scheduled_stories[i].id ≠ sid) :
    (modify_scheduled_story st sid nt nc).2.scheduled_stories.length =
      st.scheduled_stories.length ∧
    ∃ h1 : i < (modify_scheduled_story st sid nt nc).2.scheduled_stories.length,
      (modify_scheduled_story st sid nt nc).2.scheduled_stories[i] =
        st.scheduled_stories[i] := by
  rcases modifyLoop_cases sid nt nc st.scheduled_stories with
    hml | ⟨j, hj, hidj, _, hml⟩
  · have hsame : (modify_scheduled_story st sid nt nc).2 = st := by
      simp [modify_scheduled_story, hml]
    rw [hsame]
    exact ⟨rfl, hi, rfl⟩
  · have hji : j ≠ i := fun hji => hne (hji ▸ hidj)
    simp only [modify_scheduled_story, hml]
    constructor
    · exact List.length_set _ _ _
    · exact ⟨by rw [List.length_set]; exact hi, List.getElem_set_ne hji _⟩

/-- C10: cancel and modify touch at most the single record whose id matches:
the list keeps its length, and every record whose id differs from the
requested one keeps its position and all of its fields. -/
theorem c10_cancel_modify_frame (st : SchedulerState) (sid : Nat)
    (nt nc : Option String) (i : Nat) (hi : i < st.scheduled_stories.length)
    (hne : st.scheduled_stories[i].id ≠ sid) :
    (cancel_scheduled_story st sid).2.scheduled_stories.length =
      st.scheduled_stories.length ∧
    (modify_scheduled_story st sid nt nc).2.scheduled_stories.length =
      st.scheduled_stories.length ∧
    (∃ h1 : i < (cancel_scheduled_story st sid).2.scheduled_stories.length,
      (cancel_scheduled_story st sid).2.scheduled_stories[i] =
        st.scheduled_stories[i]) ∧
    (∃ h2 : i < (modify_scheduled_story st sid nt nc).2.scheduled_stories.length,
      (modify_scheduled_story st sid nt nc).2.scheduled_stories[i] =
        st.scheduled_stories[i]) :=
  ⟨(cancel_frame st sid i hi hne).1, (modify_frame st sid nt nc i hi hne).1,
   (cancel_frame st sid i hi hne).2, (modify_frame st sid nt nc i hi hne).2⟩

/-- Witness for C10 at a concrete input: cancelling or modifying the unknown
id 2 leaves the record with id 1 exactly in place. -/
theorem c10_cancel_modify_frame_witness :
    (cancel_scheduled_story demoState1 2).2.scheduled_stories.length =
      demoState1.scheduled_stories.length ∧
    (modify_scheduled_story demoState1 2 none (some "x")).2.scheduled_stories.length =
      demoState1.scheduled_stories.length ∧
    (∃ h1 : 0 < (cancel_scheduled_story demoState1 2).2.scheduled_stories.length,
      (cancel_scheduled_story demoState1 2).2.scheduled_stories[0] = demoStory) ∧
    (∃ h2 : 0 <
        (modify_scheduled_story demoState1 2 none (some "x")).2.scheduled_stories.length,
      (modify_scheduled_story demoState1 2 none
        (some "x")).2.scheduled_stories[0] = demoStory) :=
  c10_cancel_modify_frame demoState1 2 none (some "x") 0 (by decide) (by decide)

/-- C2: in every reachable state, every operation either leaves a record's
status unchanged or moves it from `scheduled` to exactly one of `posted`,
`failed` or `cancelled`; in particular no operation changes the status of a
record already in a terminal state. -/
theorem c2_status_transitions (st : SchedulerState) (hst : Reachable st)
    (op : Op) (i : Nat) (hi : i < st.scheduled_stories.length) :
    ∃ hi' : i < (applyOp op st).scheduled_stories.length,
      (applyOp op st).scheduled_stories[i].status =
        st.scheduled_stories[i].status ∨
      (st.scheduled_stories[i].status = .scheduled ∧
        ((applyOp op st).scheduled_stories[i].status = .posted ∨
         (applyOp op st).scheduled_stories[i].status = .failed ∨
         (applyOp op st).scheduled_stories[i].status = .cancelled)) := by
  have hinv := reachable_invariant st hst
  cases op with
  | schedule fs p t c =>
    simp only [applyOp]
    by_cases hfs : fs p
    · simp only [schedule_story, if_pos hfs]
      have hi' : i < (st.scheduled_stories ++ [newStory st p t c]).length := by
        simp only [List.length_append, List.length_singleton]
        omega
      exact ⟨hi', Or.inl (congrArg Story.status (List.getElem_append_left hi))⟩
    · simp only [schedule_story, if_neg hfs]
      exact ⟨hi, Or.inl trivial⟩
  | fire sid upload publish =>
    simp only [applyOp]
    by_cases hmem : sid ∈ st.timers
    · simp only [if_pos hmem]
      cases upload with
      | raise msg =>
        simp only [post_story, postFail]
        have hi' : i < (updateFirstById sid
            (fun s => { s with status := .failed, error := some msg })
            st.scheduled_stories).length := by
          rw [length_updateFirstById]; exact hi
        refine ⟨hi', ?_⟩
        rcases updateFirstById_getElem_or sid
            (fun s => { s with status := .failed, error := some msg })
            st.scheduled_stories i hi hi' with h | ⟨hsid, h⟩
        · exact Or.inl (congrArg Story.status h)
        · refine Or.inr ⟨hinv.timers_scheduled sid hmem i hi hsid,
            Or.inr (Or.inl ?_)⟩
          rw [h]
      | resp mid =>
        by_cases htr : truthyId mid
        · cases publish with
          | raise msg =>
            simp only [post_story, htr, if_pos, postFail]
            have hi' : i < (updateFirstById sid
                (fun s => { s with status := .failed, error := some msg })
                st.scheduled_stories).length := by
              rw [length_updateFirstById]; exact hi
            refine ⟨hi', ?_⟩
            rcases updateFirstById_getElem_or sid
                (fun s => { s with status := .failed, error := some msg })
                st.scheduled_stories i hi hi' with h | ⟨hsid, h⟩
            · exact Or.inl (congrArg Story.status h)
            · refine Or.inr ⟨hinv.timers_scheduled sid hmem i hi hsid,
                Or.inr (Or.inl ?_)⟩
              rw [h]
          | ok =>
            simp only [post_story, htr, if_pos]
            have hi' : i < (updateFirstById sid
                (fun s => { s with status := .posted })
                st.scheduled_stories).length := by
              rw [length_updateFirstById]; exact hi
            refine ⟨hi', ?_⟩
            rcases updateFirstById_getElem_or sid
                (fun s => { s with status := .posted })
                st.scheduled_stories i hi hi' with h | ⟨hsid, h⟩
            · exact Or.inl (congrArg Story.status h)
            · refine Or.inr ⟨hinv.timers_scheduled sid hmem i hi hsid,
                Or.inl ?_⟩
              rw [h]
        · simp only [post_story, htr, Bool.false_eq_true, if_neg, not_false_iff]
          exact ⟨hi, Or.inl trivial⟩
    · simp only [if_neg hmem]
      exact ⟨hi, Or.inl trivial⟩
  | cancel sid =>
    simp only [applyOp]
    rcases cancelLoop_cases sid st.scheduled_stories with
      hcl | ⟨j, hj, hidj, hschedj, hcl⟩
    · simp only [cancel_scheduled_story, hcl]
      exact ⟨hi, Or.inl trivial⟩
    · simp only [cancel_scheduled_story, hcl]
      have hi' : i < (st.scheduled_stories.set j
          { st.scheduled_stories[j] with status := .cancelled }).length := by
        rw [List.length_set]; exact hi
      refine ⟨hi', ?_⟩
      by_cases hij : j = i
      · subst hij
        refine Or.inr ⟨hschedj, Or.inr (Or.inr ?_)⟩
        rw [List.getElem_set_self]
      · exact Or.inl (congrArg Story.status (List.getElem_set_ne hij _))
  | modify sid nt nc =>
    simp only [applyOp]
    rcases modifyLoop_cases sid nt nc st.scheduled_stories with
      hml | ⟨j, hj, hidj, hschedj, hml⟩
    · simp only [modify_scheduled_story, hml]
      exact ⟨hi, Or.inl trivial⟩
    · simp only [modify_scheduled_story, hml]
      have hi' : i < (st.scheduled_stories.set j
          (applyMod nt nc st.scheduled_stories[j])).length := by
        rw [List.length_set]; exact hi
      refine ⟨hi', ?_⟩
      by_cases hij : j = i
      · subst hij
        left
        rw [List.getElem_set_self, applyMod_status]
      · exact Or.inl (congrArg Story.status (List.getElem_set_ne hij _))

/-- Witness for C2 at a concrete input: cancelling the scheduled record with
id 1 moves its status from `scheduled` to `cancelled`. -/
theorem c2_status_transitions_witness :
    Reachable demoState1 ∧ 0 < demoState1.scheduled_stories.length ∧
    ∃ hi' : 0 < (applyOp (Op.cancel 1) demoState1).scheduled_stories.length,
      (applyOp (Op.cancel 1) demoState1).scheduled_stories[0].status =
        demoStory.status ∨
      (demoStory.status = .scheduled ∧
        ((applyOp (Op.cancel 1) demoState1).scheduled_stories[0].status = .posted ∨
         (applyOp (Op.cancel 1) demoState1).scheduled_stories[0].status = .failed ∨
         (applyOp (Op.cancel 1) demoState1).scheduled_stories[0].status =
           .cancelled)) :=
  ⟨demoState1_reachable, by decide,
   c2_status_transitions demoState1 demoState1_reachable (Op.cancel 1) 0 (by decide)⟩

/-- C1 counterexample: when the upload call returns a response with no media
identifier, `post_story` on the scheduled record with id 1 returns normally
and changes nothing at all — the record stays `scheduled` with no error
recorded, nothing is persisted, and no failure is raised — refuting the
claim that this failure mode marks the post `failed`, attaches error text,
persists, and re-raises. -/
theorem c1_counterexample :
    post_story (UploadOutcome.resp none) PublishOutcome.ok demoState1 1 =
      (ExecOutcome.returned, demoState1) ∧
    demoState1.scheduled_stories.map Story.status = [Status.scheduled] ∧
    demoState1.scheduled_stories.map Story.error = [none] ∧
    ¬((post_story (UploadOutcome.resp none) PublishOutcome.ok
        demoState1 1).2.scheduled_stories.map Story.status = [Status.failed]) ∧
    ¬((post_story (UploadOutcome.resp none) PublishOutcome.ok
        demoState1 1).1 = ExecOutcome.raised "Media ID not found") :=
  ⟨rfl, rfl, rfl, by decide, by decide⟩

/-- C1 (amended): whenever `post_story` fails by a raised exception — the
upload raises (file, HTTP or network error), or the upload response has a
truthy media identifier and the publish call raises — the record is marked
`failed`, the exception text (non-empty for these exceptions) is attached
under `error`, the full list is persisted, and the exception is re-raised to
the caller. The amendment drops the no-media-identifier case: there the code
silently leaves the record `scheduled` (see the counterexample). -/
theorem c1_execute_failure_amended (st : SchedulerState) (sid : Nat)
    (upload : UploadOutcome) (publish : PublishOutcome) (msg : String)
    (i : Nat) (hi : i < st.scheduled_stories.length)
    (hid : st.scheduled_stories[i].id = sid)
    (hfirst : ∀ j (hj : j < st.scheduled_stories.length), j < i →
      st.scheduled_stories[j].id ≠ sid)
    (hmsg : msg ≠ "")
    (hfail : upload = .raise msg ∨
      (∃ mid, upload = .resp mid ∧ truthyId mid = true ∧ publish = .raise msg)) :
    post_story upload publish st sid =
      (.raised msg,
       { st with
           scheduled_stories := st.scheduled_stories.set i
             { st.scheduled_stories[i] with status := .failed, error := some msg },
           store := some (encodeStories (st.scheduled_stories.set i
             { st.scheduled_stories[i] with status := .failed, error := some msg })) }) ∧
    (∃ h2 : i < (st.scheduled_stories.set i
        { st.scheduled_stories[i] with status := .failed, error := some msg }).length,
      (st.scheduled_stories.set i
        { st.scheduled_stories[i] with status := .failed, error := some msg })[i].status = .failed ∧
      (st.scheduled_stories.set i
        { st.scheduled_stories[i] with status := .failed, error := some msg })[i].error = some msg ∧
      msg ≠ "") := by
  have hup := updateFirstById_spec sid
    (fun s => { s with status := .failed, error := some msg })
    st.scheduled_stories i hi hid hfirst
  constructor
  · rcases hfail with h | ⟨mid, hm, htr, hp⟩
    · subst h
      simp only [post_story, postFail, hup]
    · subst hm
      subst hp
      simp only [post_story, postFail, htr, if_pos, hup]
  · refine ⟨by rw [List.length_set]; exact hi, ?_, ?_, hmsg⟩
    · rw [List.getElem_set_self]
    · rw [List.getElem_set_self]

/-- Witness for the amended C1 at a concrete input: an upload exception with
text "boom" marks the record with id 1 failed, records the text, persists
the list and re-raises. -/
theorem c1_execute_failure_amended_witness :
    post_story (UploadOutcome.raise "boom") PublishOutcome.ok demoState1 1 =
      (.raised "boom",
       { demoState1 with
           scheduled_stories := [{ demoStory with status := .failed, error := some "boom" }],
           store := some (encodeStories [{ demoStory with status := .failed, error := some "boom" }]) }) ∧
    ("boom" : String) ≠ "" :=
  ⟨(c1_execute_failure_amended demoState1 1 (UploadOutcome.raise "boom")
      PublishOutcome.ok "boom" 0 (by decide) rfl
      (fun j hj hj0 => absurd hj0 (Nat.not_lt_zero j)) (by decide)
      (Or.inl rfl)).1,
   by decide⟩

/-- C9: saving the story list and reloading it restores exactly the same
scheduler state — in particular the same records in the same order with the
same field values — and decoding the persisted JSON encoding of any story
list yields that list back. -/
theorem c9_save_load_roundtrip (st : SchedulerState) (l : List Story) :
    load_scheduled_stories (save_scheduled_stories st) =
      some (save_scheduled_stories st) ∧
    decodeStories (encodeStories l) = some l := by
  constructor
  · show (decodeStories (encodeStories st.scheduled_stories)).map
      (fun l2 => { save_scheduled_stories st with scheduled_stories := l2 }) =
        some (save_scheduled_stories st)
    rw [decodeStories_encodeStories]
    rfl
  · exact decodeStories_encodeStories l

end Insta
